import Mathlib

/-!
Verification of the chemistry ODE solver core (phlex_solver.c and
rxns/rxn_arrhenius.c) against its natural-language specification.

Shallow embedding conventions:
* C `realtype` (double) is modelled by `ℚ` (exact arithmetic; every modelled
  value is finite).
* C `int` is modelled by `Int`; loop trip counts use `Int.toNat`, matching a
  C `for (i = 0; i < N; i++)` loop that executes `max 0 N` times.
* A reaction record is viewed through two memory functions, exactly as the C
  code casts the record pointer:
  `int_data : Int → Int` (the int view based at the record start) and
  `float_data : Int → ℚ` (the double view based at
  `&int_data[_INT_DATA_SIZE_]`).  Reads past a record's declared extent are
  ordinary reads of adjacent memory, hence the functions are total and
  unconstrained off the record: they model whatever bytes follow.
* Arrays written by loops (`deriv`, `J`, the state array, N_Vector contents)
  are total functions `Int → ℚ` updated pointwise.
-/

/-- Pointwise update of a total array, modelling a C array store `v[i] = x`. -/
def upd {α : Type} (v : Int → α) (i : Int) (x : α) : Int → α :=
  fun j => if j = i then x else v j

/-! ## Arrhenius record field accessors (macros of rxn_arrhenius.c)

`_NUM_REACT_` is `int_data[0]`, `_NUM_PROD_` is `int_data[1]`,
`_REACT_(x)` is `int_data[2+x]`,
`_PROD_(x)` is `int_data[2+NUM_REACT+x]`,
`_DERIV_ID_(x)` is `int_data[2+NUM_REACT+NUM_PROD+x]`,
`_JAC_ID_(x)` is `int_data[2+2*(NUM_REACT+NUM_PROD)+x]`,
`_RATE_CONSTANT_` is `float_data[6]`, `_yield_(x)` is `float_data[7+x]`. -/

/-- Species index of reactant `x`: `_REACT_(x) = int_data[_NUM_INT_PROP_ + x]`. -/
def REACT (d : Int → Int) (x : Int) : Int := d (2 + x)

/-- Species index of product `x`: `_PROD_(x)`. -/
def PROD (d : Int → Int) (x : Int) : Int := d (2 + d 0 + x)

/-- Derivative-slot index `x`: `_DERIV_ID_(x)`. -/
def DERIV_ID (d : Int → Int) (x : Int) : Int := d (2 + d 0 + d 1 + x)

/-- Jacobian-slot index `x`: `_JAC_ID_(x)`. -/
def JAC_ID (d : Int → Int) (x : Int) : Int := d (2 + 2 * (d 0 + d 1) + x)

/-- Product yield `x`: `_yield_(x) = float_data[_NUM_FLOAT_PROP_ + x]`. -/
def yieldF (fd : Int → ℚ) (x : Int) : ℚ := fd (7 + x)

/-- The reaction rate computed at the head of both contribution functions:
`rate = _RATE_CONSTANT_; for (i_spec = 0; i_spec < _NUM_REACT_; i_spec++)
rate *= state[_REACT_(i_spec)];`. -/
def arrheniusRate (d : Int → Int) (fd : Int → ℚ) (state : Int → ℚ) : ℚ :=
  (List.range (d 0).toNat).foldl (fun r (i : Nat) => r * state (REACT d (i : Int))) (fd 6)

/-- Embedding of `rxn_arrhenius_calc_deriv_contrib` (rxn_arrhenius.c lines
92-113).  The fold state is the pair `(i_dep_var, deriv)`.  Note: the second
accumulation loop of the source iterates `i_spec < _NUM_REACT_` (line 107),
not `_NUM_PROD_`; the transcription keeps that bound. -/
def rxn_arrhenius_calc_deriv_contrib (d : Int → Int) (fd : Int → ℚ)
    (state deriv : Int → ℚ) : Int → ℚ :=
  let rate := arrheniusRate d fd state
  if rate = 0 then deriv
  else
    let nr := (d 0).toNat
    let s1 := (List.range nr).foldl
      (fun (s : Int × (Int → ℚ)) (_ : Nat) =>
        (s.1 + 1, upd s.2 (DERIV_ID d s.1) (s.2 (DERIV_ID d s.1) - rate)))
      ((0 : Int), deriv)
    let s2 := (List.range nr).foldl
      (fun (s : Int × (Int → ℚ)) (i_spec : Nat) =>
        (s.1 + 1, upd s.2 (DERIV_ID d s.1)
          (s.2 (DERIV_ID d s.1) + rate * yieldF fd (i_spec : Int))))
      s1
    s2.2

/-- Concrete two-reactant, one-product Arrhenius record for evaluating claim
C1's example: `_NUM_REACT_ = 2`, `_NUM_PROD_ = 1`, reactant species 0 and 1,
product species 2, `_DERIV_ID_ = [0, 1, 2]`, and first Jacobian slot id
`_JAC_ID_(0) = 0` (stored at `int_data[8]`). -/
def c1IntData : Int → Int := fun i =>
  if i = 0 then 2 else if i = 1 then 1 else
  if i = 2 then 0 else if i = 3 then 1 else if i = 4 then 2 else
  if i = 5 then 0 else if i = 6 then 1 else if i = 7 then 2 else 0

/-- Float view for the C1 record: rate constant `float_data[6] = 1`, product
yield `float_data[7] = 1`, and the double one past the record's extent
(`float_data[8]`, the start of whatever follows in memory) reads as `1`. -/
def c1FloatData : Int → ℚ := fun i =>
  if i = 6 then 1 else if i = 7 then 1 else if i = 8 then 1 else 0

/-- Claim C1's state: concentrations `[A] = state[0] = 2`, `[B] = state[1] = 3`. -/
def c1State : Int → ℚ := fun i => if i = 0 then 2 else if i = 1 then 3 else 0

/-- Claim C1 (refuted by evaluation): the specification requires, for a
two-reactant one-product record with rate constant 1, `[A] = 2`, `[B] = 3`,
yield 1, the derivative entries `deriv[A] = deriv[B] = -6` and
`deriv[P] = +6`.  The code instead runs the production loop `_NUM_REACT_ = 2`
times (rxn_arrhenius.c line 107) rather than `_NUM_PROD_ = 1` times: the
extra iteration writes through `_DERIV_ID_(3)`, which is the storage of
`_JAC_ID_(0)` (here slot 0, A's derivative slot), scaled by `_yield_(1)`,
a double one past the record's extent (here 1).  The resulting vector is
`deriv[A] = -6 + 6 = 0`, `deriv[B] = -6`, `deriv[P] = 6`, contradicting the
claimed `deriv[A] = -6`. -/
theorem arrhenius_deriv_contrib_product_overrun_eval :
    rxn_arrhenius_calc_deriv_contrib c1IntData c1FloatData c1State (fun _ => 0) 0 = 0 ∧
    rxn_arrhenius_calc_deriv_contrib c1IntData c1FloatData c1State (fun _ => 0) 1 = -6 ∧
    rxn_arrhenius_calc_deriv_contrib c1IntData c1FloatData c1State (fun _ => 0) 2 = 6 ∧
    (0 : ℚ) ≠ -6 := by
  refine ⟨?_, ?_, ?_, by norm_num⟩ <;>
    · simp [rxn_arrhenius_calc_deriv_contrib, arrheniusRate, upd, DERIV_ID,
        REACT, yieldF, c1IntData, c1FloatData, c1State, List.range_succ]
      try norm_num

/-- The doubly nested counting loop shape that `rxn_arrhenius_calc_jac_contrib`
instantiates twice: `for (i_dep = 0; i_dep < m; i_dep++) for (i_ind = 0;
i_ind < n; i_ind++) { body using i_elem; i_elem++; }`.  The fold state is the
pair `(i_elem, J)`; `F J i_elem i_dep i_ind` is one execution of the body. -/
def pairLoopC (F : (Int → ℚ) → Int → Nat → Nat → (Int → ℚ)) (n m : Nat)
    (s0 : Int × (Int → ℚ)) : Int × (Int → ℚ) :=
  (List.range m).foldl
    (fun (s : Int × (Int → ℚ)) (i_dep : Nat) =>
      (List.range n).foldl
        (fun (s : Int × (Int → ℚ)) (i_ind : Nat) => (s.1 + 1, F s.2 s.1 i_dep i_ind)) s)
    s0

/-- The same doubly nested loop with the slot counter replaced by its closed
form: the body at `(i_dep, i_ind)` uses slot-table position
`c + i_dep * n + i_ind`. -/
def pairLoopIdx (F : (Int → ℚ) → Int → Nat → Nat → (Int → ℚ)) (n m : Nat)
    (c : Int) (J : Int → ℚ) : Int → ℚ :=
  (List.range m).foldl
    (fun (Jc : Int → ℚ) (i_dep : Nat) =>
      (List.range n).foldl
        (fun (Jd : Int → ℚ) (i_ind : Nat) =>
          F Jd (c + (i_dep : Int) * (n : Int) + (i_ind : Int)) i_dep i_ind) Jc)
    J

/-- Embedding of `rxn_arrhenius_calc_jac_contrib` (rxn_arrhenius.c lines
122-145): the running `i_elem` counter starts at 0, passes through the
reactant block (`_NUM_REACT_ * _NUM_REACT_` body executions, each subtracting
`rate / state[_REACT_(i_ind)]` from `J[_JAC_ID_(i_elem)]`), and continues
through the product block (`_NUM_PROD_ * _NUM_REACT_` executions, each adding
`_yield_(i_dep) * rate / state[_REACT_(i_ind)]`). -/
def rxn_arrhenius_calc_jac_contrib (d : Int → Int) (fd : Int → ℚ)
    (state J : Int → ℚ) : Int → ℚ :=
  if arrheniusRate d fd state = 0 then J
  else
    (pairLoopC
      (fun Jd c (i_dep : Nat) (i_ind : Nat) =>
        upd Jd (JAC_ID d c)
          (Jd (JAC_ID d c) +
            yieldF fd (i_dep : Int) * arrheniusRate d fd state / state (REACT d (i_ind : Int))))
      (d 0).toNat (d 1).toNat
      (pairLoopC
        (fun Jd c (_i_dep : Nat) (i_ind : Nat) =>
          upd Jd (JAC_ID d c)
            (Jd (JAC_ID d c) - arrheniusRate d fd state / state (REACT d (i_ind : Int))))
        (d 0).toNat (d 0).toNat ((0 : Int), J))).2

/-- The multiplicative fold computing the rate equals the rate constant times
the product of the reactant concentrations. -/
lemma arrheniusRate_eq_prod (d : Int → Int) (fd : Int → ℚ) (state : Int → ℚ) :
    arrheniusRate d fd state
      = fd 6 * ((List.range (d 0).toNat).map (fun (i : Nat) => state (REACT d (i : Int)))).prod := by
  unfold arrheniusRate
  generalize (d 0).toNat = n
  induction n with
  | zero => simp
  | succ k ih =>
    rw [List.range_succ, List.foldl_append, List.map_append, List.prod_append, ih]
    simp [mul_assoc]

/-- If some reactant concentration is exactly zero, the computed rate is
exactly zero (exact arithmetic on the strictly multiplicative rate law). -/
lemma arrheniusRate_eq_zero (d : Int → Int) (fd : Int → ℚ) (state : Int → ℚ)
    (i : Nat) (hi : i < (d 0).toNat) (hz : state (REACT d (i : Int)) = 0) :
    arrheniusRate d fd state = 0 := by
  rw [arrheniusRate_eq_prod]
  have hmem : (0 : ℚ) ∈ (List.range (d 0).toNat).map (fun (i : Nat) => state (REACT d (i : Int))) := by
    rw [List.mem_map]
    exact ⟨i, List.mem_range.mpr hi, hz⟩
  rw [List.prod_eq_zero hmem, mul_zero]

/-- Claim C8 (confirmed): if any reactant concentration of an Arrhenius
record is exactly 0 then, in exact arithmetic with everything finite,
`rxn_arrhenius_calc_deriv_contrib` leaves every derivative entry unchanged
and `rxn_arrhenius_calc_jac_contrib` leaves every sparse-Jacobian data entry
unchanged: the computed rate is exactly zero, so the `rate != ZERO` guards at
rxn_arrhenius.c lines 103 and 133 skip both accumulation blocks. -/
theorem arrhenius_zero_concentration_noop (d : Int → Int) (fd : Int → ℚ)
    (state deriv J : Int → ℚ) (i : Nat) (hi : i < (d 0).toNat)
    (hz : state (REACT d (i : Int)) = 0) :
    rxn_arrhenius_calc_deriv_contrib d fd state deriv = deriv ∧
    rxn_arrhenius_calc_jac_contrib d fd state J = J := by
  have hr := arrheniusRate_eq_zero d fd state i hi hz
  constructor
  · unfold rxn_arrhenius_calc_deriv_contrib
    simp [hr]
  · unfold rxn_arrhenius_calc_jac_contrib
    simp [hr]

/-- One-reactant, one-product record used by witnesses: `_NUM_REACT_ = 1`,
`_NUM_PROD_ = 1`, reactant species 0, product species 1, derivative slots
`[0, 1]`, Jacobian slots `[0, 1]`. -/
def w8IntData : Int → Int := fun i =>
  if i = 0 then 1 else if i = 1 then 1 else
  if i = 2 then 0 else if i = 3 then 1 else
  if i = 4 then 0 else if i = 5 then 1 else
  if i = 6 then 0 else if i = 7 then 1 else 0

/-- Witness for C8 at a concrete input: the single reactant's concentration
is 0, and both contribution passes return their accumulator unchanged. -/
theorem arrhenius_zero_concentration_noop_witness :
    0 < (w8IntData 0).toNat ∧ (fun _ => (0 : ℚ)) (REACT w8IntData 0) = 0 ∧
    (rxn_arrhenius_calc_deriv_contrib w8IntData (fun _ => 1) (fun _ => 0) (fun _ => 5)
        = (fun _ => 5) ∧
      rxn_arrhenius_calc_jac_contrib w8IntData (fun _ => 1) (fun _ => 0) (fun _ => 7)
        = (fun _ => 7)) :=
  ⟨by decide, by simp [REACT, w8IntData],
    arrhenius_zero_concentration_noop w8IntData (fun _ => 1) (fun _ => 0)
      (fun _ => 5) (fun _ => 7) 0 (by decide) (by simp [REACT, w8IntData])⟩

/-- The inner counting loop with the counter replaced by its closed form. -/
lemma innerLoopC_eq (F : (Int → ℚ) → Int → Nat → Nat → (Int → ℚ)) (i_dep : Nat) :
    ∀ (n : Nat) (c : Int) (J : Int → ℚ),
      (List.range n).foldl
          (fun (s : Int × (Int → ℚ)) (i_ind : Nat) => (s.1 + 1, F s.2 s.1 i_dep i_ind)) (c, J)
        = (c + (n : Int),
           (List.range n).foldl
             (fun (Jd : Int → ℚ) (i_ind : Nat) => F Jd (c + (i_ind : Int)) i_dep i_ind) J) := by
  intro n
  induction n with
  | zero => intro c J; simp
  | succ k ih =>
    intro c J
    rw [List.range_succ, List.foldl_append, List.foldl_append, ih]
    simp only [List.foldl_cons, List.foldl_nil, Prod.mk.injEq]
    exact ⟨by push_cast; ring, trivial⟩

/-- The nested counting loop equals the nested loop with closed-form slot
positions, and leaves the counter at `c + m * n`. -/
lemma pairLoopC_eq (F : (Int → ℚ) → Int → Nat → Nat → (Int → ℚ)) (n : Nat) :
    ∀ (m : Nat) (c : Int) (J : Int → ℚ),
      pairLoopC F n m (c, J) = (c + (m : Int) * (n : Int), pairLoopIdx F n m c J) := by
  intro m
  induction m with
  | zero => intro c J; simp [pairLoopC, pairLoopIdx]
  | succ k ih =>
    intro c J
    unfold pairLoopC pairLoopIdx
    rw [List.range_succ, List.foldl_append, List.foldl_append]
    rw [show (List.range k).foldl
          (fun (s : Int × (Int → ℚ)) (i_dep : Nat) =>
            (List.range n).foldl
              (fun (s : Int × (Int → ℚ)) (i_ind : Nat) => (s.1 + 1, F s.2 s.1 i_dep i_ind)) s)
          (c, J) = pairLoopC F n k (c, J) from rfl, ih]
    simp only [List.foldl_cons, List.foldl_nil]
    rw [innerLoopC_eq]
    simp only [Prod.mk.injEq, pairLoopIdx]
    exact ⟨by push_cast; ring, trivial⟩

/-- Description of the Jacobian contribution exactly as claim C3 states it:
for every (dependent-reactant-row, independent-reactant-column) pair —
Jacobian-slot-table position `i_dep * _NUM_REACT_ + i_ind` — subtract
`rate / state[independent]`, and for every (dependent-product-row,
independent-reactant-column) pair — table position
`_NUM_REACT_² + i_dep * _NUM_REACT_ + i_ind` — add
`yield(i_dep) * rate / state[independent]`. -/
def arrhenius_jac_contrib_pairs (d : Int → Int) (fd : Int → ℚ)
    (state : Int → ℚ) (rate : ℚ) (J : Int → ℚ) : Int → ℚ :=
  pairLoopIdx
    (fun Jd c (i_dep : Nat) (i_ind : Nat) =>
      upd Jd (JAC_ID d c)
        (Jd (JAC_ID d c) + yieldF fd (i_dep : Int) * rate / state (REACT d (i_ind : Int))))
    (d 0).toNat (d 1).toNat (((d 0).toNat : Int) * ((d 0).toNat : Int))
    (pairLoopIdx
      (fun Jd c (_i_dep : Nat) (i_ind : Nat) =>
        upd Jd (JAC_ID d c)
          (Jd (JAC_ID d c) - rate / state (REACT d (i_ind : Int))))
      (d 0).toNat (d 0).toNat 0 J)

/-- Claim C3 (confirmed): for an Arrhenius record with nonzero rate and all
reactant concentrations nonzero, `rxn_arrhenius_calc_jac_contrib` performs
exactly the accumulation described by the spec: `-rate/state[ind]` at the
Jacobian slot of every (dependent-reactant, independent-reactant) pair and
`+yield(dep) * rate/state[ind]` at the slot of every (dependent-product,
independent-reactant) pair, the running `i_elem` counter enumerating the
slot table in that pair order. -/
theorem arrhenius_jac_contrib_spec (d : Int → Int) (fd : Int → ℚ)
    (state J : Int → ℚ)
    (hr : arrheniusRate d fd state ≠ 0)
    (hs : ∀ i : Nat, i < (d 0).toNat → state (REACT d (i : Int)) ≠ 0) :
    rxn_arrhenius_calc_jac_contrib d fd state J
      = arrhenius_jac_contrib_pairs d fd state (arrheniusRate d fd state) J := by
  unfold rxn_arrhenius_calc_jac_contrib arrhenius_jac_contrib_pairs
  rw [if_neg hr, pairLoopC_eq, pairLoopC_eq, zero_add]

/-- Nonzero state used by the C3 witness: species 0 has concentration 2,
all other entries 1. -/
def w3State : Int → ℚ := fun i => if i = 0 then 2 else 1

/-- Witness for C3 at a concrete one-reactant, one-product record: the rate
is nonzero, every reactant concentration is nonzero, and the code's Jacobian
accumulation equals the claim's pair-indexed description. -/
theorem arrhenius_jac_contrib_spec_witness :
    arrheniusRate w8IntData (fun _ => 1) w3State ≠ 0 ∧
    (∀ i : Nat, i < (w8IntData 0).toNat → w3State (REACT w8IntData (i : Int)) ≠ 0) ∧
    rxn_arrhenius_calc_jac_contrib w8IntData (fun _ => 1) w3State (fun _ => 0)
      = arrhenius_jac_contrib_pairs w8IntData (fun _ => 1) w3State
          (arrheniusRate w8IntData (fun _ => 1) w3State) (fun _ => 0) := by
  have hr : arrheniusRate w8IntData (fun _ => 1) w3State ≠ 0 := by
    simp [arrheniusRate, REACT, w8IntData, w3State, List.range_succ]
  have hs : ∀ i : Nat, i < (w8IntData 0).toNat → w3State (REACT w8IntData (i : Int)) ≠ 0 := by
    intro i hi
    have : i = 0 := by
      have : (w8IntData 0).toNat = 1 := by decide
      omega
    subst this
    simp [REACT, w8IntData, w3State]
  exact ⟨hr, hs,
    arrhenius_jac_contrib_spec w8IntData (fun _ => 1) w3State (fun _ => 0) hr hs⟩

/-- Embedding of `rxn_arrhenius_update_env_state` (rxn_arrhenius.c lines
69-82), which stores into `_RATE_CONSTANT_` (`float_data[6]`) the value
`_A_ * SUNRexp(_C_/T) * (_B_==0 ? 1 : SUNRpowerR(T/_D_, _B_)) *
(_E_==0 ? 1 : 1+_E_*P) * SUNRpowerI(_CONV_*P/T, _NUM_REACT_-1)`.
The external transcendental helpers are parameters: `rexp` models
`SUNRexp` and `rpowR` models `SUNRpowerR` (real exponent); `SUNRpowerI`
(integer exponent) is modelled by the mathematical integer power `zpow`.
`env_data[0]` is temperature, `env_data[1]` pressure. -/
def rxn_arrhenius_update_env_state (rexp : ℚ → ℚ) (rpowR : ℚ → ℚ → ℚ)
    (env : Int → ℚ) (d : Int → Int) (fd : Int → ℚ) : Int → ℚ :=
  upd fd 6
    (fd 0 * rexp (fd 2 / env 0)
      * (if fd 1 = 0 then 1 else rpowR (env 0 / fd 3) (fd 1))
      * (if fd 4 = 0 then 1 else 1 + fd 4 * env 1)
      * (fd 5 * env 1 / env 0) ^ (d 0 - 1))

/-- The general Arrhenius rate-constant formula as the spec writes it,
with no structural short-circuits:
`A * exp(C/T) * (T/D)^B * (1 + E*P) * (conv*P/T)^(n_react - 1)`. -/
def arrhenius_rate_general (rexp : ℚ → ℚ) (rpowR : ℚ → ℚ → ℚ)
    (env : Int → ℚ) (d : Int → Int) (fd : Int → ℚ) : ℚ :=
  fd 0 * rexp (fd 2 / env 0) * rpowR (env 0 / fd 3) (fd 1)
    * (1 + fd 4 * env 1) * (fd 5 * env 1 / env 0) ^ (d 0 - 1)

/-- Claim C6 (confirmed): for every environment and record,
`rxn_arrhenius_update_env_state` caches exactly the general formula
`A·exp(C/T)·(T/D)^B·(1+E·P)·(conv·P/T)^(n_react−1)`: the `B == 0` and
`E == 0` short-circuits agree, in exact arithmetic, with evaluating the
general formula at `B = 0` (using that any power function satisfies
`x^0 = 1`, the hypothesis `hpow`) and at `E = 0` (where `1 + 0·P = 1`). -/
theorem arrhenius_update_env_state_shortcircuit (rexp : ℚ → ℚ)
    (rpowR : ℚ → ℚ → ℚ) (env : Int → ℚ) (d : Int → Int) (fd : Int → ℚ)
    (hpow : ∀ x : ℚ, rpowR x 0 = 1) :
    rxn_arrhenius_update_env_state rexp rpowR env d fd 6
      = arrhenius_rate_general rexp rpowR env d fd := by
  unfold rxn_arrhenius_update_env_state arrhenius_rate_general upd
  by_cases hB : fd 1 = 0 <;> by_cases hE : fd 4 = 0 <;>
    simp [hB, hE, hpow]

/-- Witness for C6 with concrete (abstract-function) inputs: the power
parameter sends every base to 1 at exponent 0. -/
theorem arrhenius_update_env_state_shortcircuit_witness :
    (∀ x : ℚ, (fun (_ : ℚ) (y : ℚ) => if y = 0 then (1 : ℚ) else 2) x 0 = 1) ∧
    rxn_arrhenius_update_env_state (fun _ => 3)
        (fun (_ : ℚ) (y : ℚ) => if y = 0 then (1 : ℚ) else 2)
        (fun _ => 1) (fun _ => 2) (fun _ => 1) 6
      = arrhenius_rate_general (fun _ => 3)
          (fun (_ : ℚ) (y : ℚ) => if y = 0 then (1 : ℚ) else 2)
          (fun _ => 1) (fun _ => 2) (fun _ => 1) :=
  ⟨fun x => by simp,
    arrhenius_update_env_state_shortcircuit (fun _ => 3)
      (fun (_ : ℚ) (y : ℚ) => if y = 0 then (1 : ℚ) else 2)
      (fun _ => 1) (fun _ => 2) (fun _ => 1) (fun x => by simp)⟩

/-! ## Buffer traversal (claim C7)

Every Arrhenius operation receives `void *rxn_data`, reads `_NUM_REACT_` and
`_NUM_PROD_` through the int view, and returns
`(void*) &(float_data[_FLOAT_DATA_SIZE_])` where
`float_data = (realtype*) &(int_data[_INT_DATA_SIZE_])`.  For the cursor
model, memory is `mem : Int → Int` giving the int stored at a byte offset,
`szI` and `szR` are `sizeof(int)` and `sizeof(realtype)`, and a record based
at byte offset `c` has `int_data[i]` at byte `c + szI*i` and `float_data[j]`
at byte `c + szI*_INT_DATA_SIZE_ + szR*j`. -/

/-- `_INT_DATA_SIZE_ = _NUM_INT_PROP_ + (_NUM_REACT_+2)*(_NUM_REACT_+_NUM_PROD_)`. -/
def INT_DATA_SIZE (nr np : Int) : Int := 2 + (nr + 2) * (nr + np)

/-- `_FLOAT_DATA_SIZE_ = _NUM_FLOAT_PROP_ + _NUM_PROD_`. -/
def FLOAT_DATA_SIZE (np : Int) : Int := 7 + np

/-- Advanced cursor returned by `rxn_arrhenius_skip` (rxn_arrhenius.c lines
152-158): the record pointer moved past `_INT_DATA_SIZE_` ints and
`_FLOAT_DATA_SIZE_` reals. -/
def rxn_arrhenius_skip (mem : Int → Int) (szI szR c : Int) : Int :=
  c + szI * INT_DATA_SIZE (mem c) (mem (c + szI))
    + szR * FLOAT_DATA_SIZE (mem (c + szI))

/-- Advanced cursor returned by `rxn_arrhenius_get_used_jac_elem` (line 57). -/
def rxn_arrhenius_get_used_jac_elem_next (mem : Int → Int) (szI szR c : Int) : Int :=
  c + szI * INT_DATA_SIZE (mem c) (mem (c + szI))
    + szR * FLOAT_DATA_SIZE (mem (c + szI))

/-- Advanced cursor returned by `rxn_arrhenius_update_env_state` (line 81). -/
def rxn_arrhenius_update_env_state_next (mem : Int → Int) (szI szR c : Int) : Int :=
  c + szI * INT_DATA_SIZE (mem c) (mem (c + szI))
    + szR * FLOAT_DATA_SIZE (mem (c + szI))

/-- Advanced cursor returned by `rxn_arrhenius_calc_deriv_contrib` (line 111). -/
def rxn_arrhenius_calc_deriv_contrib_next (mem : Int → Int) (szI szR c : Int) : Int :=
  c + szI * INT_DATA_SIZE (mem c) (mem (c + szI))
    + szR * FLOAT_DATA_SIZE (mem (c + szI))

/-- Advanced cursor returned by `rxn_arrhenius_calc_jac_contrib` (line 143). -/
def rxn_arrhenius_calc_jac_contrib_next (mem : Int → Int) (szI szR c : Int) : Int :=
  c + szI * INT_DATA_SIZE (mem c) (mem (c + szI))
    + szR * FLOAT_DATA_SIZE (mem (c + szI))

/-- Byte size of one record with counts `(nr, np)`. -/
def recordBytes (szI szR : Int) (r : Int × Int) : Int :=
  szI * INT_DATA_SIZE r.1 r.2 + szR * FLOAT_DATA_SIZE r.2

/-- Memory lays out the records `rs` (given by their `(_NUM_REACT_,
_NUM_PROD_)` counts) contiguously from byte offset `c`: each record reports
its own counts at its head, and the next record starts right past it. -/
def laysOut (mem : Int → Int) (szI szR : Int) : Int → List (Int × Int) → Prop
  | _, [] => True
  | c, r :: rs =>
      mem c = r.1 ∧ mem (c + szI) = r.2 ∧
      laysOut mem szI szR (c + recordBytes szI szR r) rs

/-- Repeatedly advance the cursor with the record-skip operation. -/
def traverseRecords (mem : Int → Int) (szI szR : Int) : Nat → Int → Int
  | 0, c => c
  | n + 1, c => traverseRecords mem szI szR n (rxn_arrhenius_skip mem szI szR c)

/-- Traversal over laid-out records advances by the sum of the record sizes. -/
lemma traverseRecords_laysOut (mem : Int → Int) (szI szR : Int) :
    ∀ (rs : List (Int × Int)) (c : Int), laysOut mem szI szR c rs →
      traverseRecords mem szI szR rs.length c
        = c + (rs.map (recordBytes szI szR)).sum := by
  intro rs
  induction rs with
  | nil => intro c _; simp [traverseRecords]
  | cons r rs ih =>
    intro c h
    obtain ⟨h1, h2, h3⟩ := h
    have hskip : rxn_arrhenius_skip mem szI szR c = c + recordBytes szI szR r := by
      unfold rxn_arrhenius_skip recordBytes
      rw [h1, h2]
      ring
    simp only [List.length_cons, traverseRecords, hskip, List.map_cons, List.sum_cons]
    rw [ih _ h3]
    ring

/-- Summed record sizes split into the int total and the float total. -/
lemma recordBytes_sum_split (szI szR : Int) :
    ∀ rs : List (Int × Int),
      (rs.map (recordBytes szI szR)).sum
        = szI * (rs.map (fun r => INT_DATA_SIZE r.1 r.2)).sum
          + szR * (rs.map (fun r => FLOAT_DATA_SIZE r.2)).sum := by
  intro rs
  induction rs with
  | nil => simp
  | cons r rs ih =>
    simp only [List.map_cons, List.sum_cons, ih, recordBytes]
    ring

/-- Claim C7 (confirmed): all five per-record Arrhenius operations advance
the record pointer by the identical amount (`_INT_DATA_SIZE_` ints plus
`_FLOAT_DATA_SIZE_` reals), and for a mechanism of `N` records laid out
contiguously after the one-int reaction-count header (the buffer of
`n_int_param` ints plus `n_float_param` reals allocated by
`solver_initialize`), applying the advance `N` times starting past the
header lands exactly at the buffer end
`start + szI * n_int_param + szR * n_float_param`, where
`n_int_param = 1 + Σ _INT_DATA_SIZE_` and `n_float_param = Σ _FLOAT_DATA_SIZE_`. -/
theorem arrhenius_advance_uniform_and_traversal (mem : Int → Int)
    (szI szR c0 : Int) (rs : List (Int × Int))
    (hlay : laysOut mem szI szR (c0 + szI) rs) :
    (∀ c : Int,
      rxn_arrhenius_get_used_jac_elem_next mem szI szR c
          = rxn_arrhenius_skip mem szI szR c ∧
      rxn_arrhenius_update_env_state_next mem szI szR c
          = rxn_arrhenius_skip mem szI szR c ∧
      rxn_arrhenius_calc_deriv_contrib_next mem szI szR c
          = rxn_arrhenius_skip mem szI szR c ∧
      rxn_arrhenius_calc_jac_contrib_next mem szI szR c
          = rxn_arrhenius_skip mem szI szR c) ∧
    traverseRecords mem szI szR rs.length (c0 + szI)
      = c0 + szI * (1 + (rs.map (fun r => INT_DATA_SIZE r.1 r.2)).sum)
          + szR * (rs.map (fun r => FLOAT_DATA_SIZE r.2)).sum := by
  refine ⟨fun c => ⟨rfl, rfl, rfl, rfl⟩, ?_⟩
  rw [traverseRecords_laysOut mem szI szR rs (c0 + szI) hlay,
    recordBytes_sum_split]
  ring

/-- Concrete memory for the C7 witness (`szI = 4`, `szR = 8`, header at byte
0): a record with counts `(1, 1)` at byte 4 (size `4*8 + 8*8 = 96` bytes) and
a record with counts `(2, 0)` at byte 100 (size `4*10 + 8*7 = 96` bytes). -/
def c7Mem : Int → Int := fun i =>
  if i = 4 then 1 else if i = 8 then 1 else if i = 100 then 2 else 0

/-- Witness for C7: the two-record mechanism above is laid out from byte 4,
and traversing its 2 records lands at byte `196 = 0 + 4*(1+8+10) + 8*(8+7)`,
the end of a buffer of `n_int_param = 19` ints and `n_float_param = 15`
reals. -/
theorem arrhenius_advance_uniform_and_traversal_witness :
    laysOut c7Mem 4 8 (0 + 4) [((1 : Int), (1 : Int)), (2, 0)] ∧
    traverseRecords c7Mem 4 8 2 4 = 196 := by
  have hlay : laysOut c7Mem 4 8 (0 + 4) [((1 : Int), (1 : Int)), (2, 0)] := by
    simp [laysOut, recordBytes, INT_DATA_SIZE, FLOAT_DATA_SIZE, c7Mem]
  refine ⟨hlay, ?_⟩
  have h := (arrhenius_advance_uniform_and_traversal c7Mem 4 8 0
    [((1 : Int), (1 : Int)), (2, 0)] hlay).2
  norm_num [INT_DATA_SIZE, FLOAT_DATA_SIZE] at h
  exact h

/-! ## phlex_solver.c -/

/-- `PHLEX_SOLVER_SUCCESS`. -/
def PHLEX_SOLVER_SUCCESS : Int := 0

/-- `PHLEX_SOLVER_FAIL`. -/
def PHLEX_SOLVER_FAIL : Int := 1

/-- `CHEM_SPEC_VARIABLE`. -/
def CHEM_SPEC_VARIABLE : Int := 1

/-- Embedding of `check_flag` (phlex_solver.c lines 309-330).  `flag_value`
is a pointer, modelled as a nonnegative address `addr : Nat` (address 0 is
`NULL`); `mem` gives the int stored at each address.  Faithful to the
source: in the `opt == 1` branch the comparison at line 323 is
`err_flag < 0` — it tests the POINTER `err_flag`, not the pointed-to value
`*err_flag` (which is read only by the diagnostic `fprintf`, line 325).  A
pointer to an object is never below the null address, so the condition is
`(addr : Int) < 0`, identically false. -/
def check_flag (addr : Nat) (mem : Nat → Int) (opt : Int) : Int :=
  if opt = 0 ∧ addr = 0 then PHLEX_SOLVER_FAIL
  else if opt = 1 then
    if (addr : Int) < 0 then PHLEX_SOLVER_FAIL else PHLEX_SOLVER_SUCCESS
  else PHLEX_SOLVER_SUCCESS

/-- Embedding of `check_flag_fail` (phlex_solver.c lines 338-343): `true`
means the process calls `exit(EXIT_FAILURE)`. -/
def check_flag_fail (addr : Nat) (mem : Nat → Int) (opt : Int) : Bool :=
  if check_flag addr mem opt = PHLEX_SOLVER_FAIL then true else false

/-- Claim C4 (refuted by evaluation): with `opt = 1` and the pointed-to
return flag equal to `-9` (a negative CVode error code, stored here at every
address, in particular at the valid address 4), `check_flag` returns
`PHLEX_SOLVER_SUCCESS`, not `PHLEX_SOLVER_FAIL` as the claim requires, and
`check_flag_fail` does not exit.  Line 323 of the source compares the
pointer `err_flag` with 0 instead of dereferencing it; consequently
`solver_run`'s test `check_flag(&flag, "CVode", 1) == PHLEX_SOLVER_FAIL`
(line 166) can never make `solver_run` return `PHLEX_SOLVER_FAIL`.  The
enclosing `fprintf` prints `*err_flag` and the comment reads "Check if
flag < 0", so the claim states the intent and the missing dereference is
the slip. -/
theorem check_flag_negative_flag_eval :
    check_flag 4 (fun _ => -9) 1 = PHLEX_SOLVER_SUCCESS ∧
    check_flag 4 (fun _ => -9) 1 ≠ PHLEX_SOLVER_FAIL ∧
    check_flag_fail 4 (fun _ => -9) 1 = false := by
  refine ⟨?_, ?_, ?_⟩ <;> decide

/-- Embedding of the dependent-variable counting loop of `solver_initialize`
(phlex_solver.c lines 58-60): `n_dep_var = 0; for (int i; i < n_state_var;
i++) if (var_type[i] == CHEM_SPEC_VARIABLE) (n_dep_var)++;`.  The loop
index `i` is declared WITHOUT an initializer, so the count starts from an
indeterminate stack value, modelled by the parameter `i_uninit`; the loop
body runs for `i = i_uninit, ..., n_state_var - 1`. -/
def solver_initialize_n_dep_var (n_state_var : Int) (var_type : Int → Int)
    (i_uninit : Int) : Int :=
  (List.range (n_state_var - i_uninit).toNat).foldl
    (fun acc (k : Nat) =>
      if var_type (i_uninit + (k : Int)) = CHEM_SPEC_VARIABLE then acc + 1 else acc)
    0

/-- The count the claim (and spec section 3) describes: the number of
`CHEM_SPEC_VARIABLE` entries of `var_type` among indices `0, ..., n-1`,
counted in ascending index order. -/
def countVar (var_type : Int → Int) : Nat → Nat
  | 0 => 0
  | n + 1 => countVar var_type n + (if var_type (n : Int) = CHEM_SPEC_VARIABLE then 1 else 0)

/-- Claim C5 (refuted by evaluation): with `n_state_var = 1`, a single
`CHEM_SPEC_VARIABLE` entry, and the uninitialized loop index holding 1, the
loop at phlex_solver.c line 59 (`for (int i; i < n_state_var; i++)`) runs
zero times and `solver_initialize` computes `n_dep_var = 0`, whereas the
number of Variable entries counted in ascending index order is 1; the solver
vector `sd->y` and the tolerance vector `abstol_nv` are then sized with the
wrong count.  The parallel loops at lines 93 (`int i = 0`) and 147 show the
intended initializer, so the claim states the intent and the missing
`= 0` is the slip. -/
theorem solver_initialize_dep_var_count_uninit_eval :
    solver_initialize_n_dep_var 1 (fun _ => CHEM_SPEC_VARIABLE) 1 = 0 ∧
    countVar (fun _ => CHEM_SPEC_VARIABLE) 1 = 1 ∧
    solver_initialize_n_dep_var 1 (fun _ => CHEM_SPEC_VARIABLE) 1
      ≠ (countVar (fun _ => CHEM_SPEC_VARIABLE) 1 : Int) := by
  refine ⟨?_, ?_, ?_⟩ <;> decide

/-- The sparse-matrix content handled by `get_jac_init` (a CSC
`SUNSparseMatrix`): allocated capacity `nnz`, column pointers, row indices
and data, the arrays modelled as total functions updated pointwise. -/
structure SparseMat where
  nnz : Int
  indexptrs : Int → Int
  indexvals : Int → Int
  data : Int → ℚ

/-- The value accumulated by the counting loop of `get_jac_init`
(phlex_solver.c lines 274-276).  In the source this accumulates into a
variable `n_jac_elem` declared in the `for` initializer
(`for (int i=0, n_jac_elem = 0; ...)`), which SHADOWS the function-scope
`sunindextype n_jac_elem` of line 260; the count is discarded when the loop
ends. -/
def get_jac_init_shadowed_count (n_dep_var : Nat) (jac_struct : Nat → Nat → Bool) : Int :=
  (List.range n_dep_var).foldl
    (fun acc (i : Nat) =>
      (List.range n_dep_var).foldl
        (fun acc (j : Nat) => if jac_struct i j then acc + 1 else acc) acc)
    0

/-- Embedding of `get_jac_init` (phlex_solver.c lines 254-300) given the
boolean usage matrix `jac_struct` produced by the marking pass.  The
function-scope `n_jac_elem` is never assigned (the counting loop writes a
shadowing local, see `get_jac_init_shadowed_count`), so the capacity passed
to `SUNSparseMatrix` at line 279 is an indeterminate stack value, modelled
by the parameter `n_jac_elem_uninit`; `M0` models the freshly allocated
array contents.  The fill loop (lines 282-292) sets
`indexptrs[i_col] = i_elem`, then for each `i_row` with
`jac_struct[i_col][i_row]` true (NOTE: first index `i_col`, i.e. the flag
matrix read transposed relative to the `jac_struct[i_dep][i_ind]` writes of
the marking pass) stores `data[i_elem] = 1.0` and
`indexvals[i_elem++] = i_row`, and finally `indexptrs[n_dep_var] = i_elem`. -/
def get_jac_init (n_dep_var : Nat) (jac_struct : Nat → Nat → Bool)
    (n_jac_elem_uninit : Int) (M0 : SparseMat) : SparseMat :=
  let s := (List.range n_dep_var).foldl
    (fun (s : Int × SparseMat) (i_col : Nat) =>
      (List.range n_dep_var).foldl
        (fun (t : Int × SparseMat) (i_row : Nat) =>
          if jac_struct i_col i_row then
            (t.1 + 1,
             { t.2 with
                data := upd t.2.data t.1 1,
                indexvals := upd t.2.indexvals t.1 (i_row : Int) })
          else t)
        (s.1, { s.2 with indexptrs := upd s.2.indexptrs (i_col : Int) s.1 }))
    ((0 : Int), { M0 with nnz := n_jac_elem_uninit })
  { s.2 with indexptrs := upd s.2.indexptrs (n_dep_var : Int) s.1 }

/-- The number of true cells of the usage matrix, as the claim counts it. -/
def countTrueCells (n : Nat) (jac_struct : Nat → Nat → Bool) : Nat :=
  ((List.range n).map
    (fun (i : Nat) => ((List.range n).filter (fun (j : Nat) => jac_struct i j)).length)).sum

/-- All-zero initial matrix contents for the C2 evaluation. -/
def c2M0 : SparseMat := ⟨0, fun _ => 0, fun _ => 0, fun _ => 0⟩

/-- Claim C2 (refuted by evaluation): for `n_dep_var = 1` and the usage
matrix with its single cell true, the claim requires the returned matrix to
store exactly 1 non-zero entry, but because the counting loop of
`get_jac_init` accumulates into a shadowing local (phlex_solver.c line 274)
and the function-scope `n_jac_elem` passed to `SUNSparseMatrix` (line 279)
stays uninitialized — here holding 0 — the returned capacity is 0, while
the discarded shadowed count (and the number of true cells) is 1.  The
comment "Determine the number of non-zero Jacobian elements" above the loop
shows the claim states the intent and the shadowing declaration is the
slip. -/
theorem get_jac_init_nnz_uninitialized_eval :
    (get_jac_init 1 (fun _ _ => true) 0 c2M0).nnz = 0 ∧
    countTrueCells 1 (fun _ _ => true) = 1 ∧
    get_jac_init_shadowed_count 1 (fun _ _ => true) = 1 ∧
    (get_jac_init 1 (fun _ _ => true) 0 c2M0).nnz
      ≠ (countTrueCells 1 (fun _ _ => true) : Int) := by
  refine ⟨?_, ?_, ?_, ?_⟩ <;> decide

/-- The state-refresh loop that `f` (phlex_solver.c lines 192-193) and `Jac`
(lines 223-224) both open with, textually identical in the source:
`for (int i_spec=0, i_dep_var=0; i_spec < n_state_var; i_spec++)
if (var_type[i_spec]==CHEM_SPEC_VARIABLE)
state[i_spec] = NV_DATA_S(y)[i_dep_var++];`.
The fold state is `(i_dep_var, state)`. -/
def stateUpdateLoop (n : Nat) (var_type : Int → Int) (y state : Int → ℚ) :
    Int × (Int → ℚ) :=
  (List.range n).foldl
    (fun (s : Int × (Int → ℚ)) (i_spec : Nat) =>
      if var_type (i_spec : Int) = CHEM_SPEC_VARIABLE
      then (s.1 + 1, upd s.2 (i_spec : Int) (y s.1))
      else s)
    ((0 : Int), state)

/-- The state array after the opening loop of the callback `f`. -/
def f_state_update (n : Nat) (var_type : Int → Int) (y state : Int → ℚ) : Int → ℚ :=
  (stateUpdateLoop n var_type y state).2

/-- The state array after the opening loop of the callback `Jac`. -/
def Jac_state_update (n : Nat) (var_type : Int → Int) (y state : Int → ℚ) : Int → ℚ :=
  (stateUpdateLoop n var_type y state).2

/-- Peeling the last iteration off the state-refresh loop. -/
lemma stateUpdateLoop_succ (n : Nat) (var_type : Int → Int) (y state : Int → ℚ) :
    stateUpdateLoop (n + 1) var_type y state
      = (if var_type (n : Int) = CHEM_SPEC_VARIABLE
         then ((stateUpdateLoop n var_type y state).1 + 1,
               upd (stateUpdateLoop n var_type y state).2 (n : Int)
                 (y (stateUpdateLoop n var_type y state).1))
         else stateUpdateLoop n var_type y state) := by
  unfold stateUpdateLoop
  rw [List.range_succ, List.foldl_append]
  simp

/-- Invariant of the state-refresh loop: the dependent counter equals the
ascending Variable count, Variable entries below `n` hold the solver value
at their dependent index, and all other entries are untouched. -/
lemma stateUpdateLoop_spec (var_type : Int → Int) (y state : Int → ℚ) :
    ∀ n : Nat,
      (stateUpdateLoop n var_type y state).1 = (countVar var_type n : Int) ∧
      (∀ i : Nat, i < n → var_type (i : Int) = CHEM_SPEC_VARIABLE →
        (stateUpdateLoop n var_type y state).2 (i : Int) = y (countVar var_type i)) ∧
      (∀ i : Nat, i < n → var_type (i : Int) ≠ CHEM_SPEC_VARIABLE →
        (stateUpdateLoop n var_type y state).2 (i : Int) = state (i : Int)) ∧
      (∀ j : Nat, n ≤ j →
        (stateUpdateLoop n var_type y state).2 (j : Int) = state (j : Int)) := by
  intro n
  induction n with
  | zero =>
    refine ⟨by simp [stateUpdateLoop, countVar], ?_, ?_, ?_⟩
    · intro i hi; omega
    · intro i hi; omega
    · intro j _; simp [stateUpdateLoop]
  | succ k ih =>
    obtain ⟨ih1, ih2, ih3, ih4⟩ := ih
    rw [stateUpdateLoop_succ]
    by_cases hv : var_type (k : Int) = CHEM_SPEC_VARIABLE
    · rw [if_pos hv]
      refine ⟨?_, ?_, ?_, ?_⟩
      · simp only [ih1, countVar, hv, if_pos]
        push_cast
        ring
      · intro i hi hvi
        rcases Nat.lt_succ_iff_lt_or_eq.mp hi with hlt | heq
        · have hne : (i : Int) ≠ (k : Int) := by
            intro h
            exact absurd (Int.ofNat_inj.mp h) (Nat.ne_of_lt hlt)
          simp only [upd, hne, if_neg]
          exact ih2 i hlt hvi
        · subst heq
          simp [upd, ih1]
      · intro i hi hvi
        rcases Nat.lt_succ_iff_lt_or_eq.mp hi with hlt | heq
        · have hne : (i : Int) ≠ (k : Int) := by
            intro h
            exact absurd (Int.ofNat_inj.mp h) (Nat.ne_of_lt hlt)
          simp only [upd, hne, if_neg]
          exact ih3 i hlt hvi
        · subst heq
          exact absurd hv hvi
      · intro j hj
        have hne : (j : Int) ≠ (k : Int) := by
          intro h
          have := Int.ofNat_inj.mp h
          omega
        simp only [upd, hne, if_neg]
        exact ih4 j (by omega)
    · rw [if_neg hv]
      refine ⟨?_, ?_, ?_, ?_⟩
      · simp only [ih1, countVar, hv, if_neg]
        push_cast
        ring
      · intro i hi hvi
        rcases Nat.lt_succ_iff_lt_or_eq.mp hi with hlt | heq
        · exact ih2 i hlt hvi
        · subst heq
          exact absurd hvi hv
      · intro i hi hvi
        rcases Nat.lt_succ_iff_lt_or_eq.mp hi with hlt | heq
        · exact ih3 i hlt hvi
        · subst heq
          exact ih4 i (Nat.le_refl i)
      · intro j hj
        exact ih4 j (by omega)

/-- Claim C9 (confirmed): every invocation of the callbacks `f` and `Jac`
overwrites, for each index `i` with `var_type[i] = CHEM_SPEC_VARIABLE`, the
shared state-array entry `state[i]` with the current solver-vector value at
`i`'s dependent index (the count of Variable entries below `i`), and leaves
every entry whose type is not Variable (Constant, PSSA, unknown) unwritten:
the state array is mutated as scratch on every evaluation. -/
theorem f_jac_state_update_spec (n : Nat) (var_type : Int → Int)
    (y state : Int → ℚ) (i : Nat) (hi : i < n) :
    (var_type (i : Int) = CHEM_SPEC_VARIABLE →
      f_state_update n var_type y state (i : Int) = y (countVar var_type i) ∧
      Jac_state_update n var_type y state (i : Int) = y (countVar var_type i)) ∧
    (var_type (i : Int) ≠ CHEM_SPEC_VARIABLE →
      f_state_update n var_type y state (i : Int) = state (i : Int) ∧
      Jac_state_update n var_type y state (i : Int) = state (i : Int)) := by
  obtain ⟨-, h2, h3, -⟩ := stateUpdateLoop_spec var_type y state n
  exact ⟨fun hv => ⟨h2 i hi hv, h2 i hi hv⟩, fun hv => ⟨h3 i hi hv, h3 i hi hv⟩⟩

/-- Variable-type array for the C9 witness: species 0 and 2 are Variable,
species 1 is Constant. -/
def w9VarType : Int → Int := fun j => if j = 1 then 2 else 1

/-- Witness for C9 at a concrete input: in a 3-species state with types
[Variable, Constant, Variable], entry 2 is overwritten with solver value
`y[1]` (its dependent index) by both `f` and `Jac`, and the Constant entry 1
is untouched. -/
theorem f_jac_state_update_spec_witness :
    (2 < 3 ∧ w9VarType 2 = CHEM_SPEC_VARIABLE ∧
      f_state_update 3 w9VarType (fun c => (c : ℚ)) (fun _ => 0) 2 = 1 ∧
      Jac_state_update 3 w9VarType (fun c => (c : ℚ)) (fun _ => 0) 2 = 1) ∧
    (1 < 3 ∧ w9VarType 1 ≠ CHEM_SPEC_VARIABLE ∧
      f_state_update 3 w9VarType (fun c => (c : ℚ)) (fun _ => 0) 1 = 0 ∧
      Jac_state_update 3 w9VarType (fun c => (c : ℚ)) (fun _ => 0) 1 = 0) := by
  have h2 := (f_jac_state_update_spec 3 w9VarType (fun c => (c : ℚ)) (fun _ => 0)
    2 (by decide)).1 (by decide)
  have h1 := (f_jac_state_update_spec 3 w9VarType (fun c => (c : ℚ)) (fun _ => 0)
    1 (by decide)).2 (by decide)
  have hc : countVar w9VarType 2 = 1 := by decide
  rw [hc] at h2
  exact ⟨⟨by decide, by decide, by simpa using h2.1, by simpa using h2.2⟩,
    ⟨by decide, by decide, h1.1, h1.2⟩⟩

/-- The dependent-variable copy loop that `solver_run` executes both BEFORE
the integration call (phlex_solver.c lines 147-148) and AFTER it (lines
169-170), textually identical in the source:
`for (int i_spec=0, i_dep_var=0; i_spec < n_state_var; i_spec++)
if (var_type[i_spec]==CHEM_SPEC_VARIABLE)
NV_Ith_S(sd->y, i_dep_var++) = state[i_spec];`.
The fold state is `(i_dep_var, (state, y))`: the only assignment stores a
state-array value into the solver vector `y`. -/
def yUpdateLoop (n : Nat) (var_type : Int → Int) (state y : Int → ℚ) :
    Int × ((Int → ℚ) × (Int → ℚ)) :=
  (List.range n).foldl
    (fun (s : Int × ((Int → ℚ) × (Int → ℚ))) (i_spec : Nat) =>
      if var_type (i_spec : Int) = CHEM_SPEC_VARIABLE
      then (s.1 + 1, (s.2.1, upd s.2.2 s.1 (s.2.1 (i_spec : Int))))
      else s)
    ((0 : Int), (state, y))

/-- The `(state, y)` pair after the pre-integration copy of `solver_run`
(phlex_solver.c lines 147-148). -/
def solver_run_pre_update (n : Nat) (var_type : Int → Int) (state y : Int → ℚ) :
    (Int → ℚ) × (Int → ℚ) :=
  (yUpdateLoop n var_type state y).2

/-- The `(state, y)` pair after the post-integration loop of `solver_run`
(phlex_solver.c lines 169-170, under the comment "Update the species
concentrations on the state array"). -/
def solver_run_post_update (n : Nat) (var_type : Int → Int) (state y : Int → ℚ) :
    (Int → ℚ) × (Int → ℚ) :=
  (yUpdateLoop n var_type state y).2

/-- `countVar` is monotone. -/
lemma countVar_mono (var_type : Int → Int) {m n : Nat} (h : m ≤ n) :
    countVar var_type m ≤ countVar var_type n := by
  induction n with
  | zero => simp [Nat.le_zero.mp h]
  | succ k ih =>
    rcases Nat.lt_succ_iff_lt_or_eq.mp (Nat.lt_succ_of_le h) with hlt | heq
    · calc countVar var_type m ≤ countVar var_type k := ih (by omega)
        _ ≤ countVar var_type (k + 1) := by
            simp only [countVar]
            omega
    · rw [heq]

/-- A Variable entry's dependent index is strictly below the Variable count
of any longer prefix. -/
lemma countVar_lt_of_var (var_type : Int → Int) {i n : Nat} (hi : i < n)
    (hv : var_type (i : Int) = CHEM_SPEC_VARIABLE) :
    countVar var_type i < countVar var_type n := by
  have hstep : countVar var_type (i + 1) = countVar var_type i + 1 := by
    simp [countVar, hv]
  have := countVar_mono var_type (show i + 1 ≤ n by omega)
  omega

/-- Peeling the last iteration off the dependent-variable copy loop. -/
lemma yUpdateLoop_succ (n : Nat) (var_type : Int → Int) (state y : Int → ℚ) :
    yUpdateLoop (n + 1) var_type state y
      = (if var_type (n : Int) = CHEM_SPEC_VARIABLE
         then ((yUpdateLoop n var_type state y).1 + 1,
               ((yUpdateLoop n var_type state y).2.1,
                upd (yUpdateLoop n var_type state y).2.2
                  (yUpdateLoop n var_type state y).1
                  ((yUpdateLoop n var_type state y).2.1 (n : Int))))
         else yUpdateLoop n var_type state y) := by
  unfold yUpdateLoop
  rw [List.range_succ, List.foldl_append]
  simp

/-- Invariant of the dependent-variable copy loop: the counter equals the
ascending Variable count, the state component is never written, solver slot
`countVar i` holds `state[i]` for each Variable entry `i`, and solver slots
at or above the final counter are untouched. -/
lemma yUpdateLoop_spec (var_type : Int → Int) (state y : Int → ℚ) :
    ∀ n : Nat,
      (yUpdateLoop n var_type state y).1 = (countVar var_type n : Int) ∧
      (yUpdateLoop n var_type state y).2.1 = state ∧
      (∀ i : Nat, i < n → var_type (i : Int) = CHEM_SPEC_VARIABLE →
        (yUpdateLoop n var_type state y).2.2 (countVar var_type i : Int)
          = state (i : Int)) ∧
      (∀ c : Int, (countVar var_type n : Int) ≤ c →
        (yUpdateLoop n var_type state y).2.2 c = y c) := by
  intro n
  induction n with
  | zero =>
    refine ⟨by simp [yUpdateLoop, countVar], by simp [yUpdateLoop], ?_, ?_⟩
    · intro i hi; omega
    · intro c _; simp [yUpdateLoop]
  | succ k ih =>
    obtain ⟨ih1, ih2, ih3, ih4⟩ := ih
    rw [yUpdateLoop_succ]
    by_cases hv : var_type (k : Int) = CHEM_SPEC_VARIABLE
    · rw [if_pos hv]
      have hcnt : countVar var_type (k + 1) = countVar var_type k + 1 := by
        simp [countVar, hv]
      refine ⟨?_, ih2, ?_, ?_⟩
      · rw [hcnt, ih1]
        push_cast
        ring
      · intro i hi hvi
        rcases Nat.lt_succ_iff_lt_or_eq.mp hi with hlt | heq
        · have hltc : countVar var_type i < countVar var_type k :=
            countVar_lt_of_var var_type hlt hvi
          have hne : ((countVar var_type i : Nat) : Int) ≠ (yUpdateLoop k var_type state y).1 := by
            rw [ih1]
            intro h
            have := Int.ofNat_inj.mp h
            omega
          simp only [upd, hne, if_neg]
          exact ih3 i hlt hvi
        · subst heq
          have hkey : ((countVar var_type i : Nat) : Int) = (yUpdateLoop i var_type state y).1 := by
            rw [ih1]
          simp only [upd, hkey, if_pos, ih2]
      · intro c hc
        rw [hcnt] at hc
        have hne : c ≠ (yUpdateLoop k var_type state y).1 := by
          rw [ih1]
          intro h
          subst h
          push_cast at hc
          omega
        simp only [upd, hne, if_neg]
        exact ih4 c (by push_cast at hc ⊢; omega)
    · rw [if_neg hv]
      have hcnt : countVar var_type (k + 1) = countVar var_type k := by
        simp [countVar, hv]
      refine ⟨by rw [hcnt, ih1], ih2, ?_, ?_⟩
      · intro i hi hvi
        rcases Nat.lt_succ_iff_lt_or_eq.mp hi with hlt | heq
        · exact ih3 i hlt hvi
        · subst heq
          exact absurd hvi hv
      · intro c hc
        rw [hcnt] at hc
        exact ih4 c hc

/-- Claim C10 (confirmed): the post-integration loop of `solver_run` is the
same state-to-solver-vector copy as the pre-integration loop — it assigns
`state[i_spec]` INTO the solver vector `y` (slot `countVar i`), writes no
element of the caller's state array, and therefore never copies the
integrated solution back into `state`, despite the comment "Update the
species concentrations on the state array" above it. -/
theorem solver_run_post_loop_direction (n : Nat) (var_type : Int → Int)
    (state y : Int → ℚ) :
    solver_run_post_update n var_type state y
        = solver_run_pre_update n var_type state y ∧
    (solver_run_post_update n var_type state y).1 = state ∧
    (∀ i : Nat, i < n → var_type (i : Int) = CHEM_SPEC_VARIABLE →
      (solver_run_post_update n var_type state y).2 (countVar var_type i : Int)
        = state (i : Int)) := by
  obtain ⟨-, h2, h3, -⟩ := yUpdateLoop_spec var_type state y n
  exact ⟨rfl, h2, h3⟩

/-- Variable-type array for the C10 witness: species 0 is Constant,
species 1 is Variable. -/
def w10VarType : Int → Int := fun j => if j = 0 then 2 else 1

/-- Witness for C10 at a concrete input: with types [Constant, Variable] and
`state[j] = j`, the post-integration loop equals the pre-integration loop,
leaves the state array exactly as supplied, and stores `state[1] = 1` into
solver slot 0. -/
theorem solver_run_post_loop_direction_witness :
    solver_run_post_update 2 w10VarType (fun (j : Int) => (j : ℚ)) (fun _ => 9)
        = solver_run_pre_update 2 w10VarType (fun (j : Int) => (j : ℚ)) (fun _ => 9) ∧
    (solver_run_post_update 2 w10VarType (fun (j : Int) => (j : ℚ)) (fun _ => 9)).1
        = (fun (j : Int) => (j : ℚ)) ∧
    (1 < 2 ∧ w10VarType 1 = CHEM_SPEC_VARIABLE ∧
      (solver_run_post_update 2 w10VarType (fun (j : Int) => (j : ℚ)) (fun _ => 9)).2 0 = 1) := by
  obtain ⟨h1, h2, h3⟩ :=
    solver_run_post_loop_direction 2 w10VarType (fun (j : Int) => (j : ℚ)) (fun _ => 9)
  have hc : countVar w10VarType 1 = 0 := by decide
  have h3v := h3 1 (by decide) (by decide)
  rw [hc] at h3v
  exact ⟨h1, h2, by decide, by decide, by simpa using h3v⟩
